import Mathlib

/-!
# PhotoPin domain logic: shallow embedding

This file embeds the Domain Logic Service of the PhotoPin application
(`photopin-api`, module `logic`) as pure Lean functions over an explicit
store state, and proves properties of the operations.

Modelling conventions:
- The document store (Mongo via Mongoose) is a `Store` record holding the
  three document collections (Users, Maps, Pins).  `findById` / `findOne`
  return the first matching document; `save` on a fetched document replaces
  the first document with the same id; `findByIdAndDelete` and
  `findOneAndDelete` remove the first matching document; `deleteMany`
  removes every matching document.  The store itself guarantees that the
  `id` key is unique; theorems that need this uniqueness take it as an
  explicit `Nodup` hypothesis.
- Each operation takes the store and its arguments and returns the pair of
  an `Except DomError result` and the post-call store.  Validation errors
  and LogicErrors leave the store as it was, matching the source in which
  every throw happens before the write (the model has no mid-sequence
  storage failures).
- Error messages follow the source, except that apostrophes are dropped
  from the message text.
-/

/-- An error raised by the domain logic: either a validation failure
(raised by the external validation utility before any store access) or a
`LogicError` with a human-readable message. -/
inductive DomError : Type where
  | validation : DomError
  | logic : String → DomError
deriving DecidableEq, Repr

/-- Modelled from the spec: the external Validation Utility rejects empty
strings (`notEmpty` constraint); its code lives in the separate
`photopin-validate` package, absent from the sources under review. -/
def notEmpty (s : String) : Bool := !s.isEmpty

/-- Modelled from the spec: the external Validation Utility rejects
strings that are not syntactically valid emails; the syntactic check is
modelled as containing the character at. -/
def validEmail (e : String) : Bool := e.toList.contains '@'

/-- Modelled from the spec: the external Credential Service one-way hash
(`bcrypt.hash`); modelled as a deterministic injective tagging. -/
def bcryptHash (p : String) : String := "hashed:" ++ p

/-- Modelled from the spec: the external Credential Service comparison
(`bcrypt.compare`), true exactly when the digest is the hash of the
plaintext. -/
def bcryptCompare (p digest : String) : Bool := digest == bcryptHash p

/-- A User document. -/
structure User : Type where
  id : String
  name : String
  surname : String
  email : String
  password : String
  avatar : String := ""
  language : String := ""
deriving DecidableEq, Repr

/-- A Collection embedded in a Map: a title and an ordered sequence of
Pin ids (references). -/
structure Collection : Type where
  title : String
  pins : List String
deriving DecidableEq, Repr

/-- A Map document (called `PMap` in the source). -/
structure PMap : Type where
  id : String
  title : String
  description : String
  coverImage : String
  isPublic : Bool
  author : String
  collections : List Collection
deriving DecidableEq, Repr

/-- A Pin document. Coordinates are opaque to every operation proved
here, so latitude and longitude are carried as integers. -/
structure Pin : Type where
  id : String
  mapId : String
  author : String
  title : String
  description : String
  urlImage : String
  bestTimeOfYear : String
  bestTimeOfDay : String
  photographyTips : String
  travelInformation : String
  latitude : Int
  longitude : Int
deriving DecidableEq, Repr

/-- The persistence store: the three document collections plus a counter
used to mint fresh document ids. -/
structure Store : Type where
  users : List User
  maps : List PMap
  pins : List Pin
  nextId : Nat
deriving DecidableEq, Repr

/-- Mint a fresh document id. -/
def freshId (s : Store) : String := "id" ++ toString s.nextId

/-- `document.save()` for a User fetched by id: replace the first stored
document carrying the same id. -/
def saveUser : List User → User → List User
  | [], _ => []
  | x :: xs, u => if x.id == u.id then u :: xs else x :: saveUser xs u

/-- `document.save()` for a Map fetched by id: replace the first stored
document carrying the same id. -/
def saveMap : List PMap → PMap → List PMap
  | [], _ => []
  | x :: xs, m => if x.id == m.id then m :: xs else x :: saveMap xs m

/-- `logic.registerUser`: validate, fail if a User with the email exists,
hash the password, persist a new User, return its id. -/
def registerUser (s : Store) (name surname email password : String) :
    Except DomError String × Store :=
  if !(notEmpty name && notEmpty surname && notEmpty email &&
       notEmpty password && validEmail email) then
    (.error .validation, s)
  else
    match s.users.find? (fun u => u.email == email) with
    | some _ => (.error (.logic s!"user with email {email} already exists"), s)
    | none =>
      let uid := freshId s
      let newUser : User :=
        { id := uid, name := name, surname := surname, email := email,
          password := bcryptHash password }
      (.ok uid,
       { s with users := s.users ++ [newUser], nextId := s.nextId + 1 })

/-- `logic.authenticateUser`: validate, fail if no User has the email,
compare the password against the stored digest, return the User id. -/
def authenticateUser (s : Store) (email password : String) :
    Except DomError String × Store :=
  if !(notEmpty email && notEmpty password && validEmail email) then
    (.error .validation, s)
  else
    match s.users.find? (fun u => u.email == email) with
    | none => (.error (.logic s!"user with email {email} doesnt exists"), s)
    | some u =>
      if bcryptCompare password u.password then (.ok u.id, s)
      else (.error (.logic "wrong credentials"), s)

/-- The projection of a User returned to callers: every field except the
password digest (the source selects `-_id ... -password` and re-exposes
the id). -/
structure UserView : Type where
  id : String
  name : String
  surname : String
  email : String
  avatar : String
  language : String
deriving DecidableEq, Repr

/-- Project a User document to its password-free view. -/
def User.view (u : User) : UserView :=
  { id := u.id, name := u.name, surname := u.surname, email := u.email,
    avatar := u.avatar, language := u.language }

/-- `logic.retrieveUser`: validate, fail if the id does not resolve,
return the password-free projection. -/
def retrieveUser (s : Store) (userId : String) :
    Except DomError UserView × Store :=
  if !(notEmpty userId) then (.error .validation, s)
  else
    match s.users.find? (fun u => u.id == userId) with
    | none => (.error (.logic s!"user with id {userId} doesnt exists"), s)
    | some u => (.ok u.view, s)

/-- A partial update for a User (the `data` object of `updateUser`,
applied by the store as a `$set`): absent fields are left untouched,
present fields overwrite, empty strings included. -/
structure UserPatch : Type where
  name : Option String := none
  surname : Option String := none
  email : Option String := none
  avatar : Option String := none
  language : Option String := none
deriving DecidableEq, Repr

/-- An empty patch object (rejected by the `notEmpty` validation on the
`data` argument). -/
def UserPatch.isEmptyPatch (d : UserPatch) : Bool :=
  d.name == none && d.surname == none && d.email == none &&
  d.avatar == none && d.language == none

/-- Apply a `$set` patch to a User document. -/
def applyUserPatch (u : User) (d : UserPatch) : User :=
  { u with
    name := d.name.getD u.name,
    surname := d.surname.getD u.surname,
    email := d.email.getD u.email,
    avatar := d.avatar.getD u.avatar,
    language := d.language.getD u.language }

/-- `logic.updateUser`: validate, fail if the id does not resolve
(`findByIdAndUpdate` yields null and dereferencing it is caught and
re-signalled as a LogicError), otherwise apply the `$set` patch in the
store and return the password-free view of the document as it was BEFORE
the update (Mongoose `findByIdAndUpdate` without `new` returns the
pre-update document). -/
def updateUser (s : Store) (userId : String) (d : UserPatch) :
    Except DomError UserView × Store :=
  if !(notEmpty userId && !d.isEmptyPatch) then (.error .validation, s)
  else
    match s.users.find? (fun u => u.id == userId) with
    | none => (.error (.logic s!"user with id {userId} doesnt exists"), s)
    | some u =>
      (.ok u.view, { s with users := saveUser s.users (applyUserPatch u d) })

/-- `Pin.deleteMany author`: remove every Pin authored by the user. -/
def deletePinsByAuthor (s : Store) (userId : String) : Store :=
  { s with pins := s.pins.filter (fun p => p.author != userId) }

/-- `PMap.deleteMany author`: remove every Map authored by the user. -/
def deleteMapsByAuthor (s : Store) (userId : String) : Store :=
  { s with maps := s.maps.filter (fun m => m.author != userId) }

/-- `User.findByIdAndDelete`: remove the first User document with the
id (the store keys documents by id, so the first is the only one). -/
def deleteUserById (s : Store) (userId : String) : Store :=
  { s with users := s.users.eraseP (fun u => u.id == userId) }

/-- `logic.removeUser`: validate, fail if the id does not resolve, then
delete the Pins authored by the user, then the Maps, then the User
itself, returning the deleted User document. -/
def removeUser (s : Store) (userId : String) :
    Except DomError User × Store :=
  if !(notEmpty userId) then (.error .validation, s)
  else
    match s.users.find? (fun u => u.id == userId) with
    | none => (.error (.logic s!"user with id {userId} doesnt exists"), s)
    | some u =>
      (.ok u,
       deleteUserById (deleteMapsByAuthor (deletePinsByAuthor s userId) userId)
         userId)

/-- `logic.retrieveUserMaps`: validate, then `PMap.find author`.  The
driver resolves a `find` query to an array, possibly empty and never a
null result, which the intermediate `Option` below makes explicit; the
source then guards on the result being null before returning it. -/
def retrieveUserMaps (s : Store) (userId : String) :
    Except DomError (List PMap) × Store :=
  if !(notEmpty userId) then (.error .validation, s)
  else
    let found : Option (List PMap) :=
      some (s.maps.filter (fun m => m.author == userId))
    match found with
    | none => (.error (.logic s!"no maps for user with id {userId}"), s)
    | some maps => (.ok maps, s)

/-- A Collection with its Pin references materialized (the result shape
of `populate` on `collections.pins`). -/
structure PopCollection : Type where
  title : String
  pins : List Pin
deriving DecidableEq, Repr

/-- A Map with every Collection's Pins materialized. -/
structure PopMap : Type where
  id : String
  title : String
  description : String
  coverImage : String
  isPublic : Bool
  author : String
  collections : List PopCollection
deriving DecidableEq, Repr

/-- `populate` of one embedded Collection: each Pin reference is replaced
by the Pin document it resolves to; references that resolve to no
document are dropped from the populated array. -/
def populateCollection (s : Store) (c : Collection) : PopCollection :=
  { title := c.title,
    pins := c.pins.filterMap (fun pid => s.pins.find? (fun p => p.id == pid)) }

/-- `populate collections.pins` over a whole Map. -/
def populateMap (s : Store) (m : PMap) : PopMap :=
  { id := m.id, title := m.title, description := m.description,
    coverImage := m.coverImage, isPublic := m.isPublic, author := m.author,
    collections := m.collections.map (populateCollection s) }

/-- `logic.retrieveUserMap`: validate, fail if the Map id does not
resolve, fail if the Map is private and the requester is not its author,
otherwise return the populated Map. -/
def retrieveUserMap (s : Store) (userId mapId : String) :
    Except DomError PopMap × Store :=
  if !(notEmpty userId && notEmpty mapId) then (.error .validation, s)
  else
    match s.maps.find? (fun m => m.id == mapId) with
    | none => (.error (.logic s!"no maps for user with id {mapId}"), s)
    | some m =>
      if !m.isPublic && !(m.author == userId) then
        (.error (.logic s!"map {mapId} is not from user {userId}"), s)
      else (.ok (populateMap s m), s)

/-- `logic.createMap`: validate (description and coverImage may be
empty), persist a new Map owned by the caller, return its id.  The
visibility flag is modelled from the spec: the schema (in the separate
`photopin-data` package, absent from the sources under review) defaults a
new Map to private. -/
def createMap (s : Store) (userId title description coverImage : String) :
    Except DomError String × Store :=
  if !(notEmpty userId && notEmpty title) then (.error .validation, s)
  else
    let mid := freshId s
    let m : PMap :=
      { id := mid, title := title, description := description,
        coverImage := coverImage, isPublic := false, author := userId,
        collections := [] }
    (.ok mid, { s with maps := s.maps ++ [m], nextId := s.nextId + 1 })

/-- The `data` object of `updateMap`: the three updatable fields, each
possibly absent. -/
structure MapPatch : Type where
  title : Option String := none
  description : Option String := none
  coverImage : Option String := none
deriving DecidableEq, Repr

/-- An empty patch object (rejected by the `notEmpty` validation on the
`data` argument). -/
def MapPatch.isEmptyPatch (d : MapPatch) : Bool :=
  d.title == none && d.description == none && d.coverImage == none

/-- JavaScript truthiness of an optional string field: present and not
the empty string. -/
def truthy : Option String → Bool
  | none => false
  | some v => !v.isEmpty

/-- The field assignments of `updateMap`: each of the three fields is
overwritten only when the corresponding patch field is truthy. -/
def applyMapPatch (m : PMap) (d : MapPatch) : PMap :=
  { m with
    title := if truthy d.title then d.title.getD m.title else m.title,
    description :=
      if truthy d.description then d.description.getD m.description
      else m.description,
    coverImage :=
      if truthy d.coverImage then d.coverImage.getD m.coverImage
      else m.coverImage }

/-- `logic.updateMap`: validate, fail if the Map id does not resolve,
fail if the caller is not the author, otherwise assign the truthy fields
of the patch and save, returning the saved Map. -/
def updateMap (s : Store) (userId mapId : String) (d : MapPatch) :
    Except DomError PMap × Store :=
  if !(notEmpty userId && notEmpty mapId && !d.isEmptyPatch) then
    (.error .validation, s)
  else
    match s.maps.find? (fun m => m.id == mapId) with
    | none => (.error (.logic s!"no map with id {mapId}"), s)
    | some m =>
      if !(m.author == userId) then
        (.error (.logic s!"map {mapId} is not from user {userId}"), s)
      else
        let m2 := applyMapPatch m d
        (.ok m2, { s with maps := saveMap s.maps m2 })

/-- `logic.createCollection`: validate, fail if the Map id does not
resolve, fail if the caller is not the author, then push a new empty
Collection onto the Map sequence (no duplicate-title check) and save,
returning the new sequence length. -/
def createCollection (s : Store) (userId mapId collectionTitle : String) :
    Except DomError Nat × Store :=
  if !(notEmpty userId && notEmpty mapId && notEmpty collectionTitle) then
    (.error .validation, s)
  else
    match s.maps.find? (fun m => m.id == mapId) with
    | none => (.error (.logic s!"no maps with id {mapId}"), s)
    | some m =>
      if !(m.author == userId) then
        (.error (.logic s!"map {mapId} is not from user {userId}"), s)
      else
        let m2 :=
          { m with collections :=
              m.collections ++ [{ title := collectionTitle, pins := [] }] }
        (.ok m2.collections.length, { s with maps := saveMap s.maps m2 })

/-- JavaScript `Array.findIndex` over the collection titles: the index of
the first Collection with the title, and -1 when there is none. -/
def jsFindIndex (l : List Collection) (t : String) : Int :=
  match l.findIdx? (fun c => c.title == t) with
  | none => -1
  | some i => (i : Int)

/-- In-place rename of the Collection at an index (the assignment
`pmap.collections[colIndex].title = newTitle`). -/
def renameAt : List Collection → Nat → String → List Collection
  | [], _, _ => []
  | c :: cs, 0, t => { c with title := t } :: cs
  | c :: cs, n + 1, t => c :: renameAt cs n t

/-- `logic.updateCollection`: validate, fail if the Map id does not
resolve, fail if the caller is not the author, fail when the index of
`newTitle` is strictly positive (the source compares `findIndex`,
yielding -1 for absent, with `> 0`, so a collision sitting at index 0 is
not detected), then assign `newTitle` at the index of `collectionTitle`
and save (when `collectionTitle` is absent that index is -1 and the
assignment throws, caught and re-signalled as a LogicError). -/
def updateCollection (s : Store) (userId mapId collectionTitle newTitle : String) :
    Except DomError Unit × Store :=
  if !(notEmpty userId && notEmpty mapId && notEmpty collectionTitle &&
       notEmpty newTitle) then
    (.error .validation, s)
  else
    match s.maps.find? (fun m => m.id == mapId) with
    | none => (.error (.logic s!"no maps with id {mapId}"), s)
    | some m =>
      if !(m.author == userId) then
        (.error (.logic s!"map {mapId} is not from user {userId}"), s)
      else
        if jsFindIndex m.collections newTitle > 0 then
          (.error (.logic
            s!"error updating, collection {newTitle} already exist on map {mapId}"), s)
        else
          match m.collections.findIdx? (fun c => c.title == collectionTitle) with
          | none =>
            (.error (.logic
              s!"error updating collection {collectionTitle} on map {mapId}"), s)
          | some i =>
            let m2 := { m with collections := renameAt m.collections i newTitle }
            (.ok (), { s with maps := saveMap s.maps m2 })

/-- The `newPin` argument of `createPin` / the `data` argument of
`updatePin`: the caller-supplied Pin fields. -/
structure PinFields : Type where
  title : String
  description : String
  urlImage : String
  bestTimeOfYear : String
  bestTimeOfDay : String
  photographyTips : String
  travelInformation : String
  latitude : Int
  longitude : Int
deriving DecidableEq, Repr

/-- Append a Pin reference to the Collection at an index (the push onto
`pmap.collections[colIndex].pins`). -/
def appendPinAt : List Collection → Nat → String → List Collection
  | [], _, _ => []
  | c :: cs, 0, pid => { c with pins := c.pins ++ [pid] } :: cs
  | c :: cs, n + 1, pid => c :: appendPinAt cs n pid

/-- `logic.createPin`: validate, fail if the Map id does not resolve,
fail if the caller is not the author, fail if the named Collection is not
in the Map, then create the Pin document and append its id to that
Collection sequence, returning the new Pin id. -/
def createPin (s : Store) (userId mapId collectionTitle : String)
    (newPin : PinFields) : Except DomError String × Store :=
  if !(notEmpty userId && notEmpty mapId && notEmpty collectionTitle) then
    (.error .validation, s)
  else
    match s.maps.find? (fun m => m.id == mapId) with
    | none => (.error (.logic s!"no maps for user with id {mapId}"), s)
    | some m =>
      if !(m.author == userId) then
        (.error (.logic s!"map {mapId} is not from user {userId}"), s)
      else
        match m.collections.findIdx? (fun c => c.title == collectionTitle) with
        | none => (.error (.logic s!"collection {collectionTitle} not found"), s)
        | some i =>
          let pid := freshId s
          let pin : Pin :=
            { id := pid, mapId := mapId, author := userId,
              title := newPin.title, description := newPin.description,
              urlImage := newPin.urlImage,
              bestTimeOfYear := newPin.bestTimeOfYear,
              bestTimeOfDay := newPin.bestTimeOfDay,
              photographyTips := newPin.photographyTips,
              travelInformation := newPin.travelInformation,
              latitude := newPin.latitude, longitude := newPin.longitude }
          let m2 := { m with collections := appendPinAt m.collections i pid }
          (.ok pid,
           { s with pins := s.pins ++ [pin], maps := saveMap s.maps m2,
                    nextId := s.nextId + 1 })

/-- `document.save()` for a Pin fetched by id: replace the first stored
document carrying the same id. -/
def savePin : List Pin → Pin → List Pin
  | [], _ => []
  | x :: xs, p => if x.id == p.id then p :: xs else x :: savePin xs p

/-- `logic.updatePin`: validate, fail if the Pin id does not resolve,
fail if the caller is not the author, then overwrite every mutable field
except the coordinates unconditionally (full overwrite, no partial-update
semantics) and save, returning the saved Pin. -/
def updatePin (s : Store) (userId pinId : String) (d : PinFields) :
    Except DomError Pin × Store :=
  if !(notEmpty userId && notEmpty pinId) then (.error .validation, s)
  else
    match s.pins.find? (fun p => p.id == pinId) with
    | none => (.error (.logic s!"no pin with id {pinId}"), s)
    | some p =>
      if !(p.author == userId) then
        (.error (.logic s!"pin {pinId} is not from user {userId}"), s)
      else
        let p2 :=
          { p with
            title := d.title, description := d.description,
            urlImage := d.urlImage, bestTimeOfYear := d.bestTimeOfYear,
            bestTimeOfDay := d.bestTimeOfDay,
            photographyTips := d.photographyTips,
            travelInformation := d.travelInformation }
        (.ok p2, { s with pins := savePin s.pins p2 })

/-- `logic.removeMap`: validate, fail if the Map id does not resolve,
fail if the caller is not the author, then delete every Pin whose mapId
is this Map, then delete the Map, returning the deleted Map document. -/
def removeMap (s : Store) (userId mapId : String) :
    Except DomError PMap × Store :=
  if !(notEmpty userId && notEmpty mapId) then (.error .validation, s)
  else
    match s.maps.find? (fun m => m.id == mapId) with
    | none => (.error (.logic s!"map with id {mapId} doesnt exists"), s)
    | some m =>
      if !(m.author == userId) then
        (.error (.logic s!"map {mapId} is not from user {userId}"), s)
      else
        (.ok m,
         { s with pins := s.pins.filter (fun p => p.mapId != mapId),
                  maps := s.maps.eraseP (fun x => x.id == mapId) })

/-- `logic.removeCollection`: validate, fail if the Map id does not
resolve, fail if the caller is not the author, fail if no Collection in
the Map has the title, then splice the Collection out of the sequence,
save, and delete every Pin it referenced, returning the spliced Map. -/
def removeCollection (s : Store) (userId mapId collectionTitle : String) :
    Except DomError PMap × Store :=
  if !(notEmpty userId && notEmpty mapId && notEmpty collectionTitle) then
    (.error .validation, s)
  else
    match s.maps.find? (fun m => m.id == mapId) with
    | none => (.error (.logic s!"map with id {mapId} doesnt exists"), s)
    | some m =>
      if !(m.author == userId) then
        (.error (.logic s!"map {mapId} is not from user {userId}"), s)
      else
        match m.collections.findIdx? (fun c => c.title == collectionTitle) with
        | none =>
          (.error (.logic
            s!"map {mapId} doesnt have a collection with title {collectionTitle}"), s)
        | some i =>
          let idsToDelete :=
            ((m.collections[i]?).getD { title := "", pins := [] }).pins
          let m2 := { m with collections := m.collections.eraseIdx i }
          (.ok m2,
           { s with maps := saveMap s.maps m2,
                    pins := s.pins.filter
                      (fun p => !(idsToDelete.contains p.id)) })

/-- `logic.removePin`: validate, then delete the Pin document matched by
both id and author in one `findOneAndDelete` step; fail with a
LogicError when no document matched. -/
def removePin (s : Store) (userId pinId : String) :
    Except DomError Unit × Store :=
  if !(notEmpty userId && notEmpty pinId) then (.error .validation, s)
  else
    match s.pins.find? (fun p => p.id == pinId && p.author == userId) with
    | none =>
      (.error (.logic s!"No pin with id {pinId} was found for user {userId}"), s)
    | some _ =>
      (.ok (),
       { s with pins :=
           s.pins.eraseP (fun p => p.id == pinId && p.author == userId) })

/-- The pairwise-distinct collection titles predicate of one Map. -/
def distinctTitles (m : PMap) : Prop :=
  (m.collections.map (fun c => c.title)).Nodup

instance (m : PMap) : Decidable (distinctTitles m) := by
  unfold distinctTitles; infer_instance

/-- A Map with the Collection at one index renamed (the saved document
of a successful `updateCollection`). -/
def withRenamed (m : PMap) (j : Nat) (t : String) : PMap :=
  { m with collections := renameAt m.collections j t }

/-! ## Demonstration fixtures used by the concrete instantiations -/

/-- A store with no documents. -/
def emptyStore : Store := { users := [], maps := [], pins := [], nextId := 0 }

/-- A demonstration user. -/
def demoUser : User :=
  { id := "u1", name := "Ann", surname := "Lee", email := "ann@mail.com",
    password := bcryptHash "pw1" }

/-- A second demonstration user, distinct from `demoUser`. -/
def otherUser : User :=
  { id := "u2", name := "Bob", surname := "Ray", email := "bob@mail.com",
    password := bcryptHash "pw2" }

/-- A demonstration pin, authored by `demoUser` and living on its private
map. -/
def demoPin : Pin :=
  { id := "p1", mapId := "m1", author := "u1", title := "Sunset",
    description := "", urlImage := "", bestTimeOfYear := "", bestTimeOfDay := "",
    photographyTips := "", travelInformation := "", latitude := 41,
    longitude := 2 }

/-- A private demonstration map owned by `demoUser`, with two
collections. -/
def demoPrivateMap : PMap :=
  { id := "m1", title := "Barcelona", description := "city trip",
    coverImage := "c.png", isPublic := false, author := "u1",
    collections := [{ title := "Trips", pins := ["p1"] },
                    { title := "Food", pins := [] }] }

/-- A public demonstration map owned by `demoUser`. -/
def demoPublicMap : PMap :=
  { id := "m2", title := "Paris", description := "", coverImage := "",
    isPublic := true, author := "u1", collections := [] }

/-- A demonstration update patch: a truthy title and an empty-string
description. -/
def demoPatch : MapPatch := { title := some "Girona", description := some "" }

/-- The demonstration store holding the fixtures above. -/
def demoStore : Store :=
  { users := [demoUser, otherUser], maps := [demoPrivateMap, demoPublicMap],
    pins := [demoPin], nextId := 10 }

/-! ## C1: access control of retrieveUserMap -/

/-- C1: for every user id and map id (passing validation),
`retrieveUserMap` fails with a LogicError when no Map with the id exists;
when the Map exists and is private and its author is not the requester it
fails with a LogicError; when the Map exists and is public it succeeds
for every requester, and when it is private it succeeds for its
author. -/
theorem retrieveUserMap_access (s : Store) (userId mapId : String)
    (hu : notEmpty userId = true) (hm : notEmpty mapId = true) :
    (s.maps.find? (fun m => m.id == mapId) = none →
      (retrieveUserMap s userId mapId).1 =
        .error (.logic s!"no maps for user with id {mapId}")) ∧
    (∀ M, s.maps.find? (fun m => m.id == mapId) = some M →
      (M.isPublic = false → M.author ≠ userId →
        (retrieveUserMap s userId mapId).1 =
          .error (.logic s!"map {mapId} is not from user {userId}")) ∧
      (M.isPublic = true →
        (retrieveUserMap s userId mapId).1 = .ok (populateMap s M)) ∧
      (M.author = userId →
        (retrieveUserMap s userId mapId).1 = .ok (populateMap s M))) := by
  refine ⟨fun hnone => by simp [retrieveUserMap, hu, hm, hnone],
          fun M hM => ⟨fun hpriv hne => ?_, fun hpub => ?_, fun hauth => ?_⟩⟩
  · simp [retrieveUserMap, hu, hm, hM, hpriv, hne]
  · simp [retrieveUserMap, hu, hm, hM, hpub]
  · simp [retrieveUserMap, hu, hm, hM, hauth]

/-- C1 witness: on the demonstration store, the private map is readable
by its author. -/
theorem retrieveUserMap_access_witness :
    (retrieveUserMap demoStore "u1" "m1").1 =
      .ok (populateMap demoStore demoPrivateMap) :=
  ((retrieveUserMap_access demoStore "u1" "m1" (by decide) (by decide)).2
    demoPrivateMap (by decide)).2.2 (by decide)

/-! ## C2: registration followed by authentication -/

/-- C2: for every valid registration tuple whose email is not yet in the
store, `registerUser` succeeds, and `authenticateUser` with the same
email and password on the resulting store returns the id `registerUser`
returned. -/
theorem registerUser_then_authenticateUser (s : Store)
    (name surname email password : String)
    (hn : notEmpty name = true) (hs : notEmpty surname = true)
    (he : notEmpty email = true) (hp : notEmpty password = true)
    (hev : validEmail email = true)
    (hfree : s.users.find? (fun u => u.email == email) = none) :
    ∃ uid s1, registerUser s name surname email password = (.ok uid, s1) ∧
      (authenticateUser s1 email password).1 = .ok uid := by
  refine ⟨freshId s,
    { s with
      users := s.users ++
        [{ id := freshId s, name := name, surname := surname, email := email,
           password := bcryptHash password }],
      nextId := s.nextId + 1 }, ?_, ?_⟩
  · simp [registerUser, hn, hs, he, hp, hev, hfree]
  · simp [authenticateUser, he, hp, hev, hfree, bcryptCompare]

/-- C2 witness: registering a fresh user in the empty store and
authenticating with the same credentials yields the same id. -/
theorem registerUser_then_authenticateUser_witness :
    ∃ uid s1,
      registerUser emptyStore "Ann" "Lee" "ann@mail.com" "pw1" = (.ok uid, s1) ∧
      (authenticateUser s1 "ann@mail.com" "pw1").1 = .ok uid :=
  registerUser_then_authenticateUser emptyStore "Ann" "Lee" "ann@mail.com" "pw1"
    (by decide) (by decide) (by decide) (by decide) (by decide) rfl

/-! ## C3: the distinct-collection-titles invariant -/

/-- Every document in a saved Map list is either the saved document or
one of the originals. -/
theorem mem_saveMap {l : List PMap} {m x : PMap} (hx : x ∈ saveMap l m) :
    x = m ∨ x ∈ l := by
  induction l with
  | nil => simp [saveMap] at hx
  | cons a l ih =>
    by_cases h : (a.id == m.id) = true
    · rw [saveMap, if_pos h] at hx
      rcases List.mem_cons.mp hx with h1 | h1
      · exact Or.inl h1
      · exact Or.inr (List.mem_cons_of_mem _ h1)
    · rw [saveMap, if_neg h] at hx
      rcases List.mem_cons.mp hx with h1 | h1
      · exact Or.inr (h1 ▸ List.mem_cons_self a l)
      · rcases ih h1 with h2 | h2
        · exact Or.inl h2
        · exact Or.inr (List.mem_cons_of_mem _ h2)

/-- C3 counterexample: the demonstration store satisfies the
distinct-collection-titles invariant, yet one `createCollection` call
with an already-used title reaches a store violating it, so the
operations do not preserve the invariant. -/
theorem createCollection_breaks_distinctTitles :
    (∀ m ∈ demoStore.maps, distinctTitles m) ∧
    ¬ (∀ m ∈ (createCollection demoStore "u1" "m1" "Trips").2.maps,
        distinctTitles m) := by
  decide

/-- C3 (amended): `createCollection` performs no duplicate-title check,
so it preserves the distinct-collection-titles invariant only when the
pushed title is not already used by the addressed Map (the Map carrying
the addressed id; other Maps may use the title freely); under that
proviso, every Map of the resulting store still has pairwise distinct
collection titles. -/
theorem createCollection_preserves_distinctTitles (s : Store)
    (userId mapId collectionTitle : String)
    (hinv : ∀ m ∈ s.maps, distinctTitles m)
    (hfresh : ∀ m ∈ s.maps, m.id = mapId →
      collectionTitle ∉ m.collections.map (fun c => c.title)) :
    ∀ m ∈ (createCollection s userId mapId collectionTitle).2.maps,
      distinctTitles m := by
  unfold createCollection
  by_cases hval : (!(notEmpty userId && notEmpty mapId &&
      notEmpty collectionTitle)) = true
  · simp only [hval, if_pos]; exact hinv
  · simp only [hval]
    cases hfind : s.maps.find? (fun m => m.id == mapId) with
    | none => simpa using hinv
    | some m =>
      by_cases hown : (!(m.author == userId)) = true
      · simp only [hown, if_pos]; exact hinv
      · simp only [hown, if_neg, Bool.false_eq_true, not_false_iff]
        intro x hx
        have hm : m ∈ s.maps := List.mem_of_find?_eq_some hfind
        have hid : m.id = mapId := by simpa using List.find?_some hfind
        rcases mem_saveMap hx with h1 | h1
        · subst h1
          unfold distinctTitles
          simp only [List.map_append, List.map_cons, List.map_nil]
          rw [List.nodup_append]
          refine ⟨hinv m hm, List.nodup_singleton _, ?_⟩
          intro t ht hts
          simp only [List.mem_singleton] at hts
          exact hfresh m hm hid (hts ▸ ht)
        · exact hinv x h1

/-- C3 (amended) witness: pushing a title not yet used on the
demonstration store keeps the updated first map duplicate free. -/
theorem createCollection_preserves_distinctTitles_witness :
    distinctTitles
      ((createCollection demoStore "u1" "m1" "Hikes").2.maps.headD
        demoPublicMap) :=
  createCollection_preserves_distinctTitles demoStore "u1" "m1" "Hikes"
    (by decide) (by decide)
    ((createCollection demoStore "u1" "m1" "Hikes").2.maps.headD demoPublicMap)
    (by decide)

/-! ## C4: the rename collision asymmetry of updateCollection -/

/-- When the title search of `updateCollection` finds an index, the
searched title occurs among the collection titles. -/
theorem title_mem_of_findIdx? {cs : List Collection} {t : String} {i : Nat}
    (h : cs.findIdx? (fun c => c.title == t) = some i) :
    t ∈ cs.map (fun c => c.title) := by
  obtain ⟨hlt, hp, -⟩ := List.findIdx?_eq_some_iff_getElem.mp h
  have ht : cs[i].title = t := by simpa using hp
  exact ht ▸ List.mem_map_of_mem _ (cs.getElem_mem hlt)

/-- Under pairwise distinct titles, the collision guard of
`updateCollection` (first index of the new title strictly positive)
holds exactly when a Collection after index 0 carries the new title. -/
theorem jsFindIndex_pos_iff (l : List Collection) (t : String)
    (hnd : (l.map (fun c => c.title)).Nodup) :
    jsFindIndex l t > 0 ↔ t ∈ (l.drop 1).map (fun c => c.title) := by
  cases l with
  | nil => simp [jsFindIndex]
  | cons c cs =>
    simp only [List.map_cons, List.nodup_cons] at hnd
    obtain ⟨hc, -⟩ := hnd
    simp only [List.drop_one, List.tail_cons]
    unfold jsFindIndex
    rw [List.findIdx?_cons]
    by_cases h : (c.title == t) = true
    · have ht : c.title = t := by simpa using h
      rw [if_pos h]
      constructor
      · intro hgt; exact absurd hgt (by norm_num)
      · intro hmem; exact absurd (ht ▸ hmem) hc
    · rw [if_neg h, List.findIdx?_succ]
      cases h2 : cs.findIdx? (fun c2 => c2.title == t) with
      | none =>
        have hno : ∀ x ∈ cs, x.title ≠ t := by
          intro x hx
          simpa using List.findIdx?_eq_none_iff.mp h2 x hx
        constructor
        · intro hgt; exact absurd hgt (by norm_num)
        · intro hmem
          obtain ⟨x, hx, hxt⟩ := List.mem_map.mp hmem
          exact absurd hxt (hno x hx)
      | some k =>
        constructor
        · intro _; exact title_mem_of_findIdx? h2
        · intro _
          show ((k : Int) + 1) > 0
          positivity

/-- C4: on an owned Map with pairwise distinct collection titles,
`updateCollection` fails with a LogicError when a Collection titled
`newTitle` sits at an index greater than zero, but a collision with the
Collection at index 0 is not detected: whenever no collision is detected
and a Collection titled `oldTitle` sits at index `j`, the call succeeds
and renames the Collection at `j` in place. -/
theorem updateCollection_rename (s : Store)
    (userId mapId oldTitle newTitle : String)
    (hu : notEmpty userId = true) (hm : notEmpty mapId = true)
    (ho : notEmpty oldTitle = true) (hn : notEmpty newTitle = true)
    (M : PMap) (hfind : s.maps.find? (fun m => m.id == mapId) = some M)
    (hown : M.author = userId) (hnd : distinctTitles M) :
    (newTitle ∈ (M.collections.drop 1).map (fun c => c.title) →
      updateCollection s userId mapId oldTitle newTitle =
        (.error (.logic
          s!"error updating, collection {newTitle} already exist on map {mapId}"),
         s)) ∧
    (newTitle ∉ (M.collections.drop 1).map (fun c => c.title) →
      ∀ j, M.collections.findIdx? (fun c => c.title == oldTitle) = some j →
        updateCollection s userId mapId oldTitle newTitle =
          (.ok (),
           { s with maps := saveMap s.maps (withRenamed M j newTitle) })) := by
  constructor
  · intro hmem
    have hguard : jsFindIndex M.collections newTitle > 0 :=
      (jsFindIndex_pos_iff M.collections newTitle hnd).mpr hmem
    simp [updateCollection, hu, hm, ho, hn, hfind, hown, hguard]
  · intro hmem j hj
    have hguard : ¬ jsFindIndex M.collections newTitle > 0 :=
      fun hgt => hmem ((jsFindIndex_pos_iff M.collections newTitle hnd).mp hgt)
    simp [updateCollection, withRenamed, hu, hm, ho, hn, hfind, hown, hguard, hj]

/-- C4 witness: on the demonstration store, renaming "Food" to "Trips"
succeeds although the Collection at index 0 is already titled "Trips"
(the undetected collision), renaming in place at index 1. -/
theorem updateCollection_rename_witness :
    updateCollection demoStore "u1" "m1" "Food" "Trips" =
      (.ok (),
       { demoStore with
         maps := saveMap demoStore.maps (withRenamed demoPrivateMap 1 "Trips") }) :=
  (updateCollection_rename demoStore "u1" "m1" "Food" "Trips"
    (by decide) (by decide) (by decide) (by decide) demoPrivateMap
    (by decide) (by decide) (by decide)).2 (by decide) 1 (by decide)

/-! ## C5: updateMap by a non-owner fails and changes nothing -/

/-- C5: for every stored Map resolved by its id and owned by a user, an
`updateMap` call by any other user fails with a LogicError and leaves the
whole store, hence the Map, unchanged. -/
theorem updateMap_nonowner_unchanged (s : Store)
    (userId otherId mapId : String) (d : MapPatch)
    (ho : notEmpty otherId = true) (hm : notEmpty mapId = true)
    (hd : d.isEmptyPatch = false)
    (M : PMap) (hfind : s.maps.find? (fun m => m.id == mapId) = some M)
    (hown : M.author = userId) (hne : otherId ≠ userId) :
    updateMap s otherId mapId d =
      (.error (.logic s!"map {mapId} is not from user {otherId}"), s) ∧
    (updateMap s otherId mapId d).2.maps.find? (fun m => m.id == mapId) =
      some M := by
  have hauth : (M.author == otherId) = false := by
    simp [hown]; exact fun h => hne h.symm
  constructor
  · simp [updateMap, ho, hm, hd, hfind, hauth]
  · simp [updateMap, ho, hm, hd, hfind, hauth]

/-- C5 witness: the second demonstration user cannot update the first
ones private map, and the stored map is untouched. -/
theorem updateMap_nonowner_unchanged_witness :
    updateMap demoStore "u2" "m1" { title := some "Stolen" } =
      (.error (.logic "map m1 is not from user u2"), demoStore) ∧
    (updateMap demoStore "u2" "m1"
      { title := some "Stolen" }).2.maps.find? (fun m => m.id == "m1") =
      some demoPrivateMap :=
  updateMap_nonowner_unchanged demoStore "u1" "u2" "m1"
    { title := some "Stolen" } (by decide) (by decide) (by decide)
    demoPrivateMap (by decide) (by decide) (by decide)

/-! ## C6: removeUser cascades over Pins, Maps, then the User -/

/-- After erasing the first User carrying an id from a list whose ids
are pairwise distinct, no User with that id remains. -/
theorem eraseP_user_id_ne (l : List User) (k : String)
    (hnd : (l.map (fun u => u.id)).Nodup) :
    ∀ v ∈ l.eraseP (fun u => u.id == k), v.id ≠ k := by
  induction l with
  | nil => intro v hv; simp at hv
  | cons a l ih =>
    simp only [List.map_cons, List.nodup_cons] at hnd
    obtain ⟨ha, hl⟩ := hnd
    intro v hv
    by_cases h : a.id = k
    · rw [List.eraseP_cons_of_pos (by simp [h])] at hv
      intro hvk
      exact ha (h ▸ hvk ▸ List.mem_map_of_mem (fun u => u.id) hv)
    · rw [List.eraseP_cons_of_neg (by simp [h])] at hv
      rcases List.mem_cons.mp hv with h1 | h1
      · exact h1 ▸ h
      · exact ih hl v h1

/-- C6: for every existing user (resolved by id, ids being the store
key), `removeUser` succeeds returning the deleted User document, and the
resulting store contains no Pin authored by the user, no Map authored by
the user, and no User with that id; the deletions are issued as Pins,
then Maps, then the User. -/
theorem removeUser_cascade (s : Store) (userId : String)
    (hu : notEmpty userId = true)
    (hnd : (s.users.map (fun u => u.id)).Nodup)
    (U : User) (hfind : s.users.find? (fun u => u.id == userId) = some U) :
    (removeUser s userId).1 = .ok U ∧
    (∀ p ∈ (removeUser s userId).2.pins, p.author ≠ userId) ∧
    (∀ m ∈ (removeUser s userId).2.maps, m.author ≠ userId) ∧
    (∀ v ∈ (removeUser s userId).2.users, v.id ≠ userId) ∧
    (removeUser s userId).2 =
      deleteUserById (deleteMapsByAuthor (deletePinsByAuthor s userId) userId)
        userId := by
  have hres : removeUser s userId =
      (.ok U,
       deleteUserById (deleteMapsByAuthor (deletePinsByAuthor s userId) userId)
         userId) := by
    simp [removeUser, hu, hfind]
  refine ⟨by rw [hres], ?_, ?_, ?_, by rw [hres]⟩
  · rw [hres]
    intro p hp
    simp only [deleteUserById, deleteMapsByAuthor, deletePinsByAuthor,
      List.mem_filter] at hp
    simpa using hp.2
  · rw [hres]
    intro m hm
    simp only [deleteUserById, deleteMapsByAuthor, deletePinsByAuthor,
      List.mem_filter] at hm
    simpa using hm.2
  · rw [hres]
    intro v hv
    simp only [deleteUserById, deleteMapsByAuthor, deletePinsByAuthor] at hv
    exact eraseP_user_id_ne s.users userId hnd v hv

/-- C6 witness: removing the demonstration user leaves a store with
none of that users Pins, Maps, or the User itself. -/
theorem removeUser_cascade_witness :
    (removeUser demoStore "u1").1 = .ok demoUser ∧
    (∀ p ∈ (removeUser demoStore "u1").2.pins, p.author ≠ "u1") ∧
    (∀ m ∈ (removeUser demoStore "u1").2.maps, m.author ≠ "u1") ∧
    (∀ v ∈ (removeUser demoStore "u1").2.users, v.id ≠ "u1") ∧
    (removeUser demoStore "u1").2 =
      deleteUserById (deleteMapsByAuthor (deletePinsByAuthor demoStore "u1")
        "u1") "u1" :=
  removeUser_cascade demoStore "u1" (by decide) (by decide) demoUser
    (by decide)

/-! ## C7: removePin deletes by id and author, and never succeeds twice -/

/-- After erasing the first Pin matching an id-and-author filter from a
list whose ids are pairwise distinct, the filter matches nothing. -/
theorem find?_eraseP_pin_none (l : List Pin) (pinId userId : String)
    (hnd : (l.map (fun p => p.id)).Nodup) :
    (l.eraseP (fun p => p.id == pinId && p.author == userId)).find?
      (fun p => p.id == pinId && p.author == userId) = none := by
  induction l with
  | nil => simp
  | cons a l ih =>
    simp only [List.map_cons, List.nodup_cons] at hnd
    obtain ⟨ha, hl⟩ := hnd
    by_cases h : (a.id == pinId && a.author == userId) = true
    · simp only [List.eraseP_cons, h, cond_true]
      rw [List.find?_eq_none]
      intro x hx hpx
      simp only [Bool.and_eq_true, beq_iff_eq] at h hpx
      exact ha (h.1 ▸ hpx.1 ▸ List.mem_map_of_mem (fun p => p.id) hx)
    · have hf : (a.id == pinId && a.author == userId) = false := by
        simpa using h
      simp only [List.eraseP_cons, hf, cond_false, List.find?_cons]
      exact ih hl

/-- C7: `removePin` deletes the Pin document matched by both id and
author in one step and fails with a LogicError when no such document
exists; in particular (pin ids being the store key) a second
`removePin` call right after the first always fails with a LogicError,
never succeeding silently. -/
theorem removePin_matched_delete_twice_fails (s : Store)
    (userId pinId : String)
    (hu : notEmpty userId = true) (hp : notEmpty pinId = true)
    (hnd : (s.pins.map (fun p => p.id)).Nodup) :
    (s.pins.find? (fun p => p.id == pinId && p.author == userId) = none →
      removePin s userId pinId =
        (.error
          (.logic s!"No pin with id {pinId} was found for user {userId}"),
         s)) ∧
    (∀ P, s.pins.find? (fun p => p.id == pinId && p.author == userId) =
        some P →
      removePin s userId pinId =
        (.ok (),
         { s with pins :=
             s.pins.eraseP (fun p => p.id == pinId && p.author == userId) })) ∧
    (removePin (removePin s userId pinId).2 userId pinId).1 =
      .error (.logic s!"No pin with id {pinId} was found for user {userId}") := by
  refine ⟨fun hnone => by simp [removePin, hu, hp, hnone],
          fun P hP => by simp [removePin, hu, hp, hP], ?_⟩
  cases hfind : s.pins.find? (fun p => p.id == pinId && p.author == userId) with
  | none =>
    have h1 : (removePin s userId pinId).2 = s := by
      simp [removePin, hu, hp, hfind]
    rw [h1]
    simp [removePin, hu, hp, hfind]
  | some P =>
    have h1 : (removePin s userId pinId).2 =
        { s with pins :=
            s.pins.eraseP (fun p => p.id == pinId && p.author == userId) } := by
      simp [removePin, hu, hp, hfind]
    rw [h1]
    simp [removePin, hu, hp, find?_eraseP_pin_none s.pins pinId userId hnd]

/-- C7 witness: deleting the demonstration pin twice makes the second
call fail with a LogicError. -/
theorem removePin_matched_delete_twice_fails_witness :
    (removePin (removePin demoStore "u1" "p1").2 "u1" "p1").1 =
      .error (.logic "No pin with id p1 was found for user u1") :=
  (removePin_matched_delete_twice_fails demoStore "u1" "p1"
    (by decide) (by decide) (by decide)).2.2

/-! ## C8: updateMap overwrites exactly the truthy patch fields -/

/-- C8: on a Map owned by the caller, `updateMap` succeeds, saving a Map
whose title, description and coverImage are overwritten exactly when the
corresponding patch field is present and truthy, every other stored
field being unchanged; in particular an absent field or an empty string
leaves the stored field untouched, so an empty string cannot blank a
field. -/
theorem updateMap_overwrites_truthy_fields (s : Store)
    (userId mapId : String) (d : MapPatch)
    (hu : notEmpty userId = true) (hm : notEmpty mapId = true)
    (hd : d.isEmptyPatch = false)
    (M : PMap) (hfind : s.maps.find? (fun m => m.id == mapId) = some M)
    (hown : M.author = userId) :
    updateMap s userId mapId d =
      (.ok (applyMapPatch M d),
       { s with maps := saveMap s.maps (applyMapPatch M d) }) ∧
    (applyMapPatch M d).title =
      (if truthy d.title then d.title.getD M.title else M.title) ∧
    (applyMapPatch M d).description =
      (if truthy d.description then d.description.getD M.description
       else M.description) ∧
    (applyMapPatch M d).coverImage =
      (if truthy d.coverImage then d.coverImage.getD M.coverImage
       else M.coverImage) ∧
    (d.title = some "" ∨ d.title = none →
      (applyMapPatch M d).title = M.title) ∧
    (d.description = some "" ∨ d.description = none →
      (applyMapPatch M d).description = M.description) ∧
    (d.coverImage = some "" ∨ d.coverImage = none →
      (applyMapPatch M d).coverImage = M.coverImage) ∧
    (applyMapPatch M d).id = M.id ∧
    (applyMapPatch M d).author = M.author ∧
    (applyMapPatch M d).isPublic = M.isPublic ∧
    (applyMapPatch M d).collections = M.collections := by
  have hauth : (M.author == userId) = true := by simp [hown]
  refine ⟨by simp [updateMap, hu, hm, hd, hfind, hauth], rfl, rfl, rfl,
          ?_, ?_, ?_, rfl, rfl, rfl, rfl⟩
  · rintro (h | h) <;> simp [applyMapPatch, h, truthy] <;>
      exact fun hfalse => absurd hfalse (by decide)
  · rintro (h | h) <;> simp [applyMapPatch, h, truthy] <;>
      exact fun hfalse => absurd hfalse (by decide)
  · rintro (h | h) <;> simp [applyMapPatch, h, truthy] <;>
      exact fun hfalse => absurd hfalse (by decide)

/-- C8 witness: a patch with a truthy title and an empty-string
description retitles the private demonstration map and leaves its
description alone. -/
theorem updateMap_overwrites_truthy_fields_witness :
    updateMap demoStore "u1" "m1" demoPatch =
      (.ok (applyMapPatch demoPrivateMap demoPatch),
       { demoStore with
         maps := saveMap demoStore.maps (applyMapPatch demoPrivateMap demoPatch) }) :=
  (updateMap_overwrites_truthy_fields demoStore "u1" "m1" demoPatch
    (by decide) (by decide) (by decide) demoPrivateMap
    (by decide) (by decide)).1

/-! ## C9: retrieveUserMaps cannot fail after validation -/

/-- C9: for every user id passing validation, `retrieveUserMaps`
succeeds and returns exactly the Maps authored by the user, the driver
resolving the query to an array that is never null, so the guarded
not-found branch is unreachable; a user with no authored Maps receives
the empty list, not an error. -/
theorem retrieveUserMaps_never_fails (s : Store) (userId : String)
    (hu : notEmpty userId = true) :
    retrieveUserMaps s userId =
      (.ok (s.maps.filter (fun m => m.author == userId)), s) ∧
    ((∀ m ∈ s.maps, m.author ≠ userId) →
      (retrieveUserMaps s userId).1 = .ok []) := by
  constructor
  · simp [retrieveUserMaps, hu]
  · intro hno
    have hfil : s.maps.filter (fun m => m.author == userId) = [] := by
      rw [List.filter_eq_nil_iff]
      intro m hm
      simpa using hno m hm
    simp [retrieveUserMaps, hu, hfil]

/-- C9 witness: the second demonstration user authored no maps and
receives the empty list. -/
theorem retrieveUserMaps_never_fails_witness :
    (retrieveUserMaps demoStore "u2").1 = .ok [] :=
  (retrieveUserMaps_never_fails demoStore "u2" (by decide)).2 (by decide)

/-! ## C10: updateUser returns the pre-update document -/

/-- Replacing the stored User found by an id lookup with a document
carrying the same id leaves that document as the lookup result. -/
theorem find?_saveUser {l : List User} {k : String} {U : User}
    (newU : User)
    (hfind : l.find? (fun u => u.id == k) = some U) (hid : newU.id = U.id) :
    (saveUser l newU).find? (fun u => u.id == k) = some newU := by
  induction l with
  | nil => simp at hfind
  | cons a l ih =>
    by_cases h : (a.id == k) = true
    · simp only [List.find?_cons, h] at hfind
      injection hfind with hau
      have h2 : (a.id == newU.id) = true := by simp [hid, ← hau]
      have h3 : (newU.id == k) = true := by
        rw [hid, ← hau]; exact h
      simp only [saveUser, h2, if_true, List.find?_cons, h3]
    · have hf : (a.id == k) = false := by simpa using h
      simp only [List.find?_cons, hf] at hfind
      have hUk : U.id = k := by simpa using List.find?_some hfind
      have h2 : (a.id == newU.id) = false := by
        have h' : a.id ≠ k := by simpa using h
        simp only [hid, hUk, beq_eq_false_iff_ne, ne_eq]
        exact h'
      simp only [saveUser, h2, Bool.false_eq_true, if_false, List.find?_cons, hf]
      exact ih hfind

/-- C10: for every existing user, `updateUser` returns the stored
fields as they were before the update, without the password (the
pre-update document), while the store afterwards holds the document
with the patch applied. -/
theorem updateUser_returns_preUpdate (s : Store) (userId : String)
    (d : UserPatch) (hu : notEmpty userId = true)
    (hd : d.isEmptyPatch = false)
    (U : User) (hfind : s.users.find? (fun u => u.id == userId) = some U) :
    (updateUser s userId d).1 = .ok U.view ∧
    (updateUser s userId d).2.users.find? (fun u => u.id == userId) =
      some (applyUserPatch U d) := by
  constructor
  · simp [updateUser, hu, hd, hfind]
  · have h2 : (updateUser s userId d).2.users =
        saveUser s.users (applyUserPatch U d) := by
      simp [updateUser, hu, hd, hfind]
    rw [h2]
    exact find?_saveUser (applyUserPatch U d) hfind rfl

/-- C10 witness: updating the demonstration users avatar returns the
old password-free document while the store holds the new avatar. -/
theorem updateUser_returns_preUpdate_witness :
    (updateUser demoStore "u1" { avatar := some "pic.png" }).1 =
      .ok demoUser.view ∧
    (updateUser demoStore "u1"
      { avatar := some "pic.png" }).2.users.find? (fun u => u.id == "u1") =
      some (applyUserPatch demoUser { avatar := some "pic.png" }) :=
  updateUser_returns_preUpdate demoStore "u1" { avatar := some "pic.png" }
    (by decide) (by decide) demoUser (by decide)
